import Mathlib

/-!
Verification of the Tecnologia-ECCOS portal's reservation logic.

The repository's sources in scope are:
* `src/unnamed/part_000` — the `NovaReserva` page: the zod `formSchema`, the
  `onSubmit` handler (conflict check, auto-approval, persistence), and helpers;
* `src/pages/admin/ComprasFinanceiro.tsx` — the admin purchase-request page
  (`handleStatusChange`, the status `Select` options);
* `src/components/admin/ChatAdmin.tsx` — the admin chat (`canEditOrDelete`).

The Availability Engine (`findConflicts`, `decideAutoApproval`) described by
the design document lives in `@/services/reservationService`, which is not
among the provided sources; its definitions below are modelled from the
specification text and are marked as such.  Everything else is translated
directly from the TypeScript sources.
-/

/-- Reservation status, from the spec's state list and the status strings
used throughout the sources (`pending`, `approved`, `rejected`,
`in-progress`, `completed`, `canceled`). -/
inductive Status where
  | pending
  | approved
  | rejected
  | inProgress
  | completed
  | canceled
deriving DecidableEq, Repr

/-- Modelled from the spec: a `ReservationWindow` — one resource booking for a
single day.  Dates carry no time-of-day component and are abstracted as `Nat`
day identifiers; `resourceIds` is the (intended non-empty) set of opaque
resource identifiers, represented as a list. -/
structure ReservationWindow where
  date : Nat
  startMinute : Nat
  endMinute : Nat
  resourceIds : List String
  status : Status
deriving DecidableEq, Repr

/-- Modelled from the spec: a detected `Conflict`, carrying the shared
resource identifier, the conflicting window's time range, and a
human-readable label supplied by the caller's resource lookup. -/
structure Conflict where
  resourceId : String
  startMinute : Nat
  endMinute : Nat
  resourceLabel : String
deriving DecidableEq, Repr

/-- Modelled from the spec: the engine's error taxonomy.  `InvalidWindow`
(malformed candidate) is the only error kind the engine itself raises. -/
inductive EngineError where
  | InvalidWindow
deriving DecidableEq, Repr

/-- Modelled from the spec: only `pending` and `approved` windows count as
blocking for conflict purposes. -/
def blocking : Status → Bool
  | .pending => true
  | .approved => true
  | _ => false

/-- Modelled from the spec: half-open minute-range overlap,
`candidate.startMinute < other.endMinute AND other.startMinute < candidate.endMinute`. -/
def overlaps (candidate other : ReservationWindow) : Bool :=
  decide (candidate.startMinute < other.endMinute) &&
    decide (other.startMinute < candidate.endMinute)

/-- A window `w` conflicts with the candidate: same date, blocking status, at
least one shared resource identifier, and overlapping minute ranges.  This is
the conjunction of the spec's filter step (step 1) and overlap test (step 2). -/
def conflictsWith (candidate w : ReservationWindow) : Bool :=
  (w.date == candidate.date && blocking w.status &&
      candidate.resourceIds.any fun r => w.resourceIds.contains r) &&
    overlaps candidate w

/-- Modelled from the spec: `findConflicts(candidate, existing)`.  Fails with
`InvalidWindow` when `candidate.startMinute >= candidate.endMinute` or when
`candidate.resourceIds` is empty; otherwise filters `existing` to same-date,
blocking, resource-sharing windows, keeps the overlapping ones, and emits one
`Conflict` per shared resource identifier.  `lbl` is the caller's resource
label lookup. -/
def findConflicts (lbl : String → String) (candidate : ReservationWindow)
    (existing : List ReservationWindow) : Except EngineError (List Conflict) :=
  if candidate.startMinute ≥ candidate.endMinute then
    .error .InvalidWindow
  else if candidate.resourceIds = [] then
    .error .InvalidWindow
  else
    let relevant := existing.filter fun w =>
      w.date == candidate.date && blocking w.status &&
        candidate.resourceIds.any fun r => w.resourceIds.contains r
    let overlapping := relevant.filter fun w => overlaps candidate w
    .ok (overlapping.flatMap fun w =>
      (candidate.resourceIds.filter fun r => w.resourceIds.contains r).map fun r =>
        { resourceId := r, startMinute := w.startMinute, endMinute := w.endMinute,
          resourceLabel := lbl r })

/-- Modelled from the spec: the auto-approval decision. -/
inductive Decision where
  | Approved
  | PendingReview
deriving DecidableEq, Repr

/-- Modelled from the spec: business opening minute, 420 = 07:00. -/
def businessOpenMinute : Nat := 420

/-- Modelled from the spec: business closing minute, 1140 = 19:00. -/
def businessCloseMinute : Nat := 1140

/-- Modelled from the spec: `decideAutoApproval` returns `Approved` when the
conflict list is empty, the candidate's date is in the open calendar, and the
window lies within business hours; otherwise `PendingReview`. -/
def decideAutoApproval (candidate : ReservationWindow) (calendar : List Nat)
    (conflicts : List Conflict) : Decision :=
  if conflicts.isEmpty && calendar.contains candidate.date &&
      decide (businessOpenMinute ≤ candidate.startMinute) &&
      decide (candidate.endMinute ≤ businessCloseMinute) then
    .Approved
  else
    .PendingReview

/-! ## JavaScript string comparison

`onSubmit` compares time strings with JavaScript's relational operators
(`values.startTime >= '07:00'`, `values.endTime <= '19:00'`), which compare
code units lexicographically; for the ASCII strings involved this is
lexicographic comparison of the character sequences. -/

/-- Lexicographic strict comparison of character lists, as performed by the
JavaScript `<` operator on strings. -/
def charListLt : List Char → List Char → Bool
  | _, [] => false
  | [], _ :: _ => true
  | a :: as, b :: bs =>
    if a < b then true else if b < a then false else charListLt as bs

/-- JavaScript `a < b` on strings. -/
def jsStrLt (a b : String) : Bool := charListLt a.data b.data

/-- JavaScript `a <= b` on strings (`!(b < a)`); `a >= b` is `jsStrLe b a`. -/
def jsStrLe (a b : String) : Bool := !jsStrLt b a

/-! ## The `NovaReserva` form schema (`formSchema`, src/unnamed/part_000) -/

/-- The values of the `NovaReserva` form, typed as by `z.infer<typeof
formSchema>`: a date (abstract day identifier), two `HH:mm` time strings,
the selected equipment ids, a location and a purpose. -/
structure FormValues where
  date : Nat
  startTime : String
  endTime : String
  selectedEquipment : List String
  location : String
  purpose : String
deriving DecidableEq, Repr

/-- The time regex of `formSchema`, `^(0[7-9]|1[0-9]):[0-5]\d$`: exactly five
characters `h1 h2 : m1 m2` where `h1 h2` is `07`–`09` or `10`–`19`, `m1` is
`0`–`5` and `m2` is a digit. -/
def timeRegexOK (s : String) : Bool :=
  match s.data with
  | [h1, h2, c, m1, m2] =>
    c = ':' &&
      ((h1 = '0' && '7' ≤ h2 && h2 ≤ '9') || (h1 = '1' && h2.isDigit)) &&
      ('0' ≤ m1 && m1 ≤ '5') && m2.isDigit
  | _ => false

/-- The hour/minute pair read by `split(':').map(Number)` from a time string;
the zod refinements only run on strings already matched by the regex, whose
shape is exactly five characters `h1 h2 : m1 m2`.  Other shapes are mapped to
`(0, 0)`. -/
def timeHM (s : String) : Nat × Nat :=
  match s.data with
  | [h1, h2, _, m1, m2] =>
    ((h1.toNat - 48) * 10 + (h2.toNat - 48), (m1.toNat - 48) * 10 + (m2.toNat - 48))
  | _ => (0, 0)

/-- `startH * 60 + startM`, the minutes-since-midnight reading used by the
`formSchema` refinements. -/
def timeToMinutes (s : String) : Nat := (timeHM s).1 * 60 + (timeHM s).2

/-- `formSchema` acceptance: both time strings match the regex, at least one
equipment item is selected, the location is non-empty, the purpose has at
least 10 characters, and the two `.refine` steps hold: start minutes strictly
before end minutes, and `(startH >= 7 && startH < 19) && (endH > 7 && endH <= 19)`. -/
def formSchemaAccepts (v : FormValues) : Bool :=
  timeRegexOK v.startTime && timeRegexOK v.endTime &&
    decide (1 ≤ v.selectedEquipment.length) &&
    decide (1 ≤ v.location.length) &&
    decide (10 ≤ v.purpose.length) &&
    decide (timeToMinutes v.startTime < timeToMinutes v.endTime) &&
    (decide (7 ≤ (timeHM v.startTime).1) && decide ((timeHM v.startTime).1 < 19) &&
      decide (7 < (timeHM v.endTime).1) && decide ((timeHM v.endTime).1 ≤ 19))

/-- The candidate window the form submission hands to the conflict check
(`checkConflicts({date, startTime, endTime, equipmentIds})`), expressed in the
engine's `ReservationWindow` form: times in minutes, equipment ids as the
resource set.  The candidate is not yet persisted; its status field is the
initial `pending` placeholder and is not consulted by the engine. -/
def mkCandidate (v : FormValues) : ReservationWindow :=
  { date := v.date
    startMinute := timeToMinutes v.startTime
    endMinute := timeToMinutes v.endTime
    resourceIds := v.selectedEquipment
    status := .pending }

/-! ## The `onSubmit` handler (src/unnamed/part_000, lines 140–203) -/

/-- An equipment record as used by `onSubmit` (`equipment.find(e => e.id ===
equipId)` and `equip.type`). -/
structure Equipment where
  id : String
  type : String
deriving DecidableEq, Repr

/-- One conflict as rendered by `onSubmit`'s error toast
(`conflict.equipmentName`, `conflict.startTime`, `conflict.endTime`). -/
structure ConflictInfo where
  equipmentName : String
  startTime : String
  endTime : String
deriving DecidableEq, Repr

/-- The authenticated user as consulted by `onSubmit`
(`currentUser?.displayName`, `currentUser?.email`, `currentUser?.uid`). -/
structure User where
  displayName : String
  email : String
  uid : String
deriving DecidableEq, Repr

/-- JavaScript `x || d` for an optional string `x` (`currentUser?.field ||
default`): the default is used when the user is absent or the field is the
empty string (falsy). -/
def orDefault (x : Option String) (d : String) : String :=
  match x with
  | none => d
  | some s => if s = "" then d else s

/-- Increment the count for `ty` in an association list, as the `reduce` in
`onSubmit` does on its accumulator record (`acc[equip.type] = (acc[equip.type]
|| 0) + 1`). -/
def bumpCount (acc : List (String × Nat)) (ty : String) : List (String × Nat) :=
  match acc with
  | [] => [(ty, 1)]
  | (k, n) :: rest => if k = ty then (k, n + 1) :: rest else (k, n) :: bumpCount rest ty

/-- The `equipmentQuantities` reduce of `onSubmit`: for each selected
equipment id found in the equipment list, bump the count of its `type`. -/
def equipmentQuantities (equipment : List Equipment) (selected : List String) :
    List (String × Nat) :=
  selected.foldl
    (fun acc equipId =>
      match equipment.find? (fun e => e.id == equipId) with
      | some equip => bumpCount acc equip.type
      | none => acc)
    []

/-- The reservation document passed to `addReservation` by `onSubmit`. -/
structure Reservation where
  date : Nat
  startTime : String
  endTime : String
  location : String
  purpose : String
  equipmentIds : List String
  equipQuantities : List (String × Nat)
  userName : String
  userEmail : String
  userId : String
  status : String
deriving DecidableEq, Repr

/-- The outcome of one `onSubmit` run: the reservation persisted via
`addReservation` (if any) and whether `sendAdminNotification` was reached. -/
structure SubmitResult where
  persisted : Option Reservation
  notified : Bool
deriving DecidableEq, Repr

/-- `isDateAvailable` (src/unnamed/part_000, lines 134–138): the date occurs
in the loaded `availableDates`. -/
def isDateAvailable (availableDates : List Nat) (date : Nat) : Bool :=
  availableDates.any fun availableDate => availableDate == date

/-- The `onSubmit` handler of `NovaReserva`, with the result of the external
`checkConflicts` call supplied as the `conflicts` input: when conflicts are
non-empty it returns early (no persistence, no notification); otherwise it
computes `autoApproved` (`isDateAvailable(values.date) && values.startTime >=
'07:00' && values.endTime <= '19:00'`, JavaScript string comparison), persists
the reservation with status `approved` or `pending`, and sends the admin
notification. -/
def onSubmit (values : FormValues) (equipment : List Equipment)
    (availableDates : List Nat) (currentUser : Option User)
    (conflicts : List ConflictInfo) : SubmitResult :=
  if conflicts.length > 0 then
    { persisted := none, notified := false }
  else
    let autoApproved := isDateAvailable availableDates values.date &&
      jsStrLe "07:00" values.startTime && jsStrLe values.endTime "19:00"
    { persisted := some
        { date := values.date
          startTime := values.startTime
          endTime := values.endTime
          location := values.location
          purpose := values.purpose
          equipmentIds := values.selectedEquipment
          equipQuantities := equipmentQuantities equipment values.selectedEquipment
          userName := orDefault (currentUser.map User.displayName) "Usuário"
          userEmail := orDefault (currentUser.map User.email) "email@exemplo.com"
          userId := (currentUser.map User.uid).getD ""
          status := if autoApproved then "approved" else "pending" }
      notified := true }

/-! ## Admin purchase-request page (src/src/pages/admin/ComprasFinanceiro.tsx) -/

/-- The `RequestStatus` union type imported from the reservation service and
offered by the status `Select` (lines 484–489): `pending`, `approved`,
`rejected`, `in-progress`, `completed`, `canceled`. -/
inductive RequestStatus where
  | pending
  | approved
  | rejected
  | inProgress
  | completed
  | canceled
deriving DecidableEq, Repr

/-- The fields of a purchase `RequestData` consulted by `handleStatusChange`. -/
structure RequestData where
  id : String
  collectionName : String
  userEmail : String
  status : RequestStatus
deriving DecidableEq, Repr

/-- The six `SelectItem` options of the status dropdown (lines 484–489). -/
def selectStatusOptions : List RequestStatus :=
  [.pending, .approved, .rejected, .inProgress, .completed, .canceled]

/-- `handleStatusChange` (lines 166–190): with no request selected it returns
without updating (the `!newStatus` half of the guard can never fire, since
`newStatus` always holds one of the six status values); otherwise it writes
`{ status: newStatus }` to the selected request's document unconditionally —
no check on the current status.  The result is the stored document after the
call (the source also emits a notification and a toast, which do not touch
the stored status). -/
def handleStatusChange (selectedRequest : Option RequestData)
    (newStatus : RequestStatus) : Option RequestData :=
  match selectedRequest with
  | none => none
  | some r => some { r with status := newStatus }

/-! ## Admin chat (src/src/components/admin/ChatAdmin.tsx) -/

/-- The fields of a chat `MessageData` consulted by `canEditOrDelete`. -/
structure MessageData where
  id : String
  userId : String
  isAdmin : Bool
  isDeleted : Bool
deriving DecidableEq, Repr

/-- `canEditOrDelete` (lines 227–229): `currentUser && message.userId ===
currentUser.uid && !message.isDeleted`.  The edit/delete dropdown is rendered
exactly when this is truthy (line 305). -/
def canEditOrDelete (currentUser : Option User) (message : MessageData) : Bool :=
  match currentUser with
  | none => false
  | some u => message.userId == u.uid && !message.isDeleted

/-! ## Concrete sample values used by the witness theorems -/

/-- A concrete well-formed candidate window: 09:00–10:00 on day 10 for
`projector1`. -/
def c2Candidate : ReservationWindow :=
  { date := 10, startMinute := 540, endMinute := 600,
    resourceIds := ["projector1"], status := .pending }

/-- A concrete existing window on a different day (day 11). -/
def c2Existing : ReservationWindow :=
  { date := 11, startMinute := 540, endMinute := 600,
    resourceIds := ["projector1"], status := .approved }

/-- A concrete accepted form submission. -/
def c3Values : FormValues :=
  { date := 10, startTime := "08:00", endTime := "09:00",
    selectedEquipment := ["chromebook-1"], location := "TI",
    purpose := "Aula de tecnologia" }

/-- The reservation `onSubmit` persists for `c3Values` with day 10 available,
no equipment records loaded, no signed-in user and no conflicts. -/
def c3Persisted : Reservation :=
  { date := 10, startTime := "08:00", endTime := "09:00", location := "TI",
    purpose := "Aula de tecnologia", equipmentIds := ["chromebook-1"],
    equipQuantities := [], userName := "Usuário",
    userEmail := "email@exemplo.com", userId := "", status := "approved" }

/-- A concrete non-empty conflict list, as rendered by the error toast. -/
def c8Conflicts : List ConflictInfo :=
  [{ equipmentName := "Chromebook 1", startTime := "08:00", endTime := "09:00" }]

/-- A concrete form value accepted by `formSchema`. -/
def c9Values : FormValues :=
  { date := 3, startTime := "07:30", endTime := "18:45",
    selectedEquipment := ["ipad-2"], location := "Biblioteca (Superior)",
    purpose := "Pesquisa em grupo" }

/-! ## Claim theorems -/

/-- C1: the auto-approval decision is `Approved` iff the conflict list is
empty, the candidate's date is in the open calendar, the start is at or after
minute 420 (07:00), and the end is at or before minute 1140 (19:00); if any
single condition fails the decision is `PendingReview`. -/
theorem decideAutoApproval_approved_iff (candidate : ReservationWindow)
    (calendar : List Nat) (conflicts : List Conflict) :
    (decideAutoApproval candidate calendar conflicts = .Approved ↔
      (conflicts = [] ∧ candidate.date ∈ calendar ∧
        businessOpenMinute ≤ candidate.startMinute ∧
        candidate.endMinute ≤ businessCloseMinute)) ∧
    (decideAutoApproval candidate calendar conflicts = .PendingReview ↔
      ¬(conflicts = [] ∧ candidate.date ∈ calendar ∧
        businessOpenMinute ≤ candidate.startMinute ∧
        candidate.endMinute ≤ businessCloseMinute)) := by
  have hc : (conflicts.isEmpty && calendar.contains candidate.date &&
      decide (businessOpenMinute ≤ candidate.startMinute) &&
      decide (candidate.endMinute ≤ businessCloseMinute)) = true ↔
      (conflicts = [] ∧ candidate.date ∈ calendar ∧
        businessOpenMinute ≤ candidate.startMinute ∧
        candidate.endMinute ≤ businessCloseMinute) := by
    simp [Bool.and_eq_true, List.isEmpty_iff, List.elem_iff, and_assoc]
  unfold decideAutoApproval
  split <;> rename_i h
  · simp [hc.mp h]
  · have hn := fun hp => h (hc.mpr hp)
    simp [hn]
    intro h1 h2 h3
    exact Nat.lt_of_not_le fun h4 => hn ⟨h1, h2, h3, h4⟩

/-- Fusing two successive `List.filter` passes into one. -/
theorem filter_filter_and {α : Type} (p q : α → Bool) (l : List α) :
    (l.filter p).filter q = l.filter fun a => p a && q a := by
  induction l with
  | nil => rfl
  | cons a l ih =>
    by_cases hp : p a <;> by_cases hq : q a <;>
      simp [List.filter_cons, hp, hq, ih]

/-- C2: for a well-formed candidate `C`, a window `W` is reported as
conflicting iff it has the candidate's date, a blocking status, a shared
resource identifier, and a half-open minute overlap; touching boundaries
never conflict; `findConflicts` emits exactly one conflict per shared
resource of each such window of `E`, and returns `ok []` when no window of
`E` qualifies. -/
theorem findConflicts_conflict_iff (lbl : String → String)
    (C W : ReservationWindow) (E : List ReservationWindow)
    (hdur : C.startMinute < C.endMinute) (hres : C.resourceIds ≠ []) :
    (conflictsWith C W = true ↔
      (W.date = C.date ∧ blocking W.status = true ∧
        (∃ r ∈ C.resourceIds, r ∈ W.resourceIds) ∧
        C.startMinute < W.endMinute ∧ W.startMinute < C.endMinute)) ∧
    (C.endMinute = W.startMinute → conflictsWith C W = false) ∧
    (findConflicts lbl C E = .ok ((E.filter (conflictsWith C)).flatMap fun w =>
      (C.resourceIds.filter fun r => w.resourceIds.contains r).map fun r =>
        { resourceId := r, startMinute := w.startMinute, endMinute := w.endMinute,
          resourceLabel := lbl r })) ∧
    ((∀ w ∈ E, conflictsWith C w = false) → findConflicts lbl C E = .ok []) := by
  have key : findConflicts lbl C E =
      .ok ((E.filter (conflictsWith C)).flatMap fun w =>
        (C.resourceIds.filter fun r => w.resourceIds.contains r).map fun r =>
          { resourceId := r, startMinute := w.startMinute, endMinute := w.endMinute,
            resourceLabel := lbl r }) := by
    rw [findConflicts, if_neg (by omega), if_neg hres]
    dsimp only
    rw [filter_filter_and]
    rfl
  refine ⟨?_, ?_, key, ?_⟩
  · simp [conflictsWith, overlaps, Bool.and_eq_true, List.any_eq_true,
      List.contains, List.elem_iff, beq_iff_eq, and_assoc]
  · intro h
    simp [conflictsWith, overlaps, h]
  · intro hall
    have hf : E.filter (conflictsWith C) = [] := by
      rw [List.filter_eq_nil_iff]
      intro a ha
      simp [hall a ha]
    rw [key, hf]
    rfl

/-- The validity guards of `findConflicts` characterised: it reports
`InvalidWindow` exactly for a non-positive duration or an empty resource set. -/
theorem findConflicts_error_char (lbl : String → String)
    (c : ReservationWindow) (existing : List ReservationWindow) :
    findConflicts lbl c existing = .error .InvalidWindow ↔
      (c.endMinute ≤ c.startMinute ∨ c.resourceIds = []) := by
  unfold findConflicts
  by_cases h1 : c.startMinute ≥ c.endMinute
  · rw [if_pos h1]
    simp only [ge_iff_le] at h1
    simp [h1]
  · rw [if_neg h1]
    by_cases h2 : c.resourceIds = []
    · rw [if_pos h2]
      simp [h2]
    · rw [if_neg h2]
      dsimp only
      simp [h2]
      omega

/-- C4: `findConflicts` fails with `InvalidWindow` exactly when the candidate
has `startMinute >= endMinute` or an empty resource set; every run is either
that error or a success (`InvalidWindow` is the only error the engine
raises); in particular it fails for a candidate with `startMinute = 600`,
`endMinute = 600`, `resourceIds = ["r1"]`, and for any candidate with an
empty resource set. -/
theorem findConflicts_invalid_window (lbl : String → String)
    (c : ReservationWindow) (existing : List ReservationWindow) :
    (findConflicts lbl c existing = .error .InvalidWindow ↔
      (c.endMinute ≤ c.startMinute ∨ c.resourceIds = [])) ∧
    (findConflicts lbl c existing = .error .InvalidWindow ∨
      ∃ cs, findConflicts lbl c existing = .ok cs) ∧
    findConflicts lbl
      { c with startMinute := 600, endMinute := 600, resourceIds := ["r1"] }
      existing = .error .InvalidWindow ∧
    findConflicts lbl { c with resourceIds := [] } existing =
      .error .InvalidWindow := by
  refine ⟨findConflicts_error_char lbl c existing, ?_, ?_, ?_⟩
  · cases hfc : findConflicts lbl c existing with
    | ok cs => exact .inr ⟨cs, rfl⟩
    | error e => cases e; exact .inl rfl
  · exact (findConflicts_error_char lbl _ existing).mpr (.inl (by simp))
  · exact (findConflicts_error_char lbl _ existing).mpr (.inr (by simp))

/-- C7: the minute-range overlap verdict is symmetric in its two windows. -/
theorem overlaps_symm (a b : ReservationWindow) : overlaps a b = overlaps b a := by
  simp [overlaps]
  exact Bool.and_comm _ _

/-- C6: the admin status dropdown offers all six statuses, and
`handleStatusChange` updates a selected request to any chosen status
unconditionally — no guard consults the current status, for any `(from, to)`
pair, including `completed` back to `pending`. -/
theorem handleStatusChange_unrestricted :
    (∀ s : RequestStatus, s ∈ selectStatusOptions) ∧
    (∀ (r : RequestData) (newStatus : RequestStatus),
      handleStatusChange (some r) newStatus = some { r with status := newStatus }) := by
  constructor
  · intro s
    cases s <;> simp [selectStatusOptions]
  · intro r newStatus
    rfl

/-- C10: the admin-chat edit/delete controls are offered exactly when a user
is signed in, the message's `userId` equals the current user's `uid`, and the
message is not deleted. -/
theorem canEditOrDelete_iff (currentUser : Option User) (message : MessageData) :
    canEditOrDelete currentUser message = true ↔
      ∃ u, currentUser = some u ∧ message.userId = u.uid ∧
        message.isDeleted = false := by
  cases currentUser with
  | none => simp [canEditOrDelete]
  | some u => simp [canEditOrDelete, Bool.and_eq_true, beq_iff_eq]

/-- C8: when the conflict check returns a non-empty sequence, `onSubmit`
returns early: nothing is persisted and no admin notification is sent. -/
theorem onSubmit_conflict_aborts (values : FormValues) (equipment : List Equipment)
    (availableDates : List Nat) (currentUser : Option User)
    (conflicts : List ConflictInfo) (h : conflicts ≠ []) :
    onSubmit values equipment availableDates currentUser conflicts =
      { persisted := none, notified := false } := by
  unfold onSubmit
  rw [if_pos]
  exact List.length_pos.mpr h

/-- C3: every reservation persisted by `onSubmit` has initial status
`approved` exactly when the submission auto-approved (no conflicts, date in
the availability list, times within the 07:00–19:00 window) and `pending`
otherwise; no other initial status occurs. -/
theorem onSubmit_initial_status (values : FormValues) (equipment : List Equipment)
    (availableDates : List Nat) (currentUser : Option User)
    (conflicts : List ConflictInfo) (r : Reservation)
    (h : (onSubmit values equipment availableDates currentUser conflicts).persisted
      = some r) :
    (r.status = "approved" ∨ r.status = "pending") ∧
    (r.status = "approved" ↔
      (conflicts = [] ∧
        (isDateAvailable availableDates values.date &&
          jsStrLe "07:00" values.startTime &&
          jsStrLe values.endTime "19:00") = true)) := by
  unfold onSubmit at h
  by_cases hc : conflicts.length > 0
  · rw [if_pos hc] at h
    simp at h
  · rw [if_neg hc] at h
    have hnil : conflicts = [] := by
      cases conflicts with
      | nil => rfl
      | cons a l => exact absurd (by simp) hc
    simp only [Option.some.injEq] at h
    by_cases hA : (isDateAvailable availableDates values.date &&
        jsStrLe "07:00" values.startTime && jsStrLe values.endTime "19:00") = true
    · rw [hA] at h
      subst h
      simp [hnil, hA]
    · rw [if_neg hA] at h
      subst h
      simp [hnil, hA]

/-- C9: every form value accepted by `formSchema` has a start time strictly
before its end time (in minutes), a non-empty equipment selection, and both
times matching the `HH:mm` regex with hours constrained by the 07–19
refinement; hence the engine's `InvalidWindow` conditions are unreachable for
candidates built from an accepted form. -/
theorem formSchema_meets_engine_preconditions (v : FormValues)
    (lbl : String → String) (E : List ReservationWindow)
    (h : formSchemaAccepts v = true) :
    timeRegexOK v.startTime = true ∧ timeRegexOK v.endTime = true ∧
    7 ≤ (timeHM v.startTime).1 ∧ (timeHM v.startTime).1 < 19 ∧
    7 < (timeHM v.endTime).1 ∧ (timeHM v.endTime).1 ≤ 19 ∧
    timeToMinutes v.startTime < timeToMinutes v.endTime ∧
    v.selectedEquipment ≠ [] ∧
    ∃ cs, findConflicts lbl (mkCandidate v) E = .ok cs := by
  simp only [formSchemaAccepts, Bool.and_eq_true, decide_eq_true_eq] at h
  obtain ⟨⟨⟨⟨⟨⟨h1, h2⟩, h3⟩, h4⟩, h5⟩, h6⟩, ⟨⟨h7, h8⟩, h9⟩, h10⟩ := h
  have hne : (mkCandidate v).resourceIds ≠ [] := List.ne_nil_of_length_pos h3
  refine ⟨h1, h2, h7, h8, h9, h10, h6, List.ne_nil_of_length_pos h3, ?_⟩
  cases hfc : findConflicts lbl (mkCandidate v) E with
  | ok cs => exact ⟨cs, rfl⟩
  | error e =>
    cases e
    rcases (findConflicts_error_char lbl (mkCandidate v) E).mp hfc with hle | hempty
    · have hlt : (mkCandidate v).startMinute < (mkCandidate v).endMinute := h6
      omega
    · exact absurd hempty hne

/-- Concrete instance of the conflict characterisation, at a candidate and an
existing window on different days. -/
theorem findConflicts_conflict_iff_witness :
    c2Candidate.startMinute < c2Candidate.endMinute ∧
    c2Candidate.resourceIds ≠ [] ∧
    ((conflictsWith c2Candidate c2Existing = true ↔
      (c2Existing.date = c2Candidate.date ∧ blocking c2Existing.status = true ∧
        (∃ r ∈ c2Candidate.resourceIds, r ∈ c2Existing.resourceIds) ∧
        c2Candidate.startMinute < c2Existing.endMinute ∧
        c2Existing.startMinute < c2Candidate.endMinute)) ∧
    (c2Candidate.endMinute = c2Existing.startMinute →
      conflictsWith c2Candidate c2Existing = false) ∧
    (findConflicts id c2Candidate [c2Existing] =
      .ok (([c2Existing].filter (conflictsWith c2Candidate)).flatMap fun w =>
        (c2Candidate.resourceIds.filter fun r => w.resourceIds.contains r).map fun r =>
          { resourceId := r, startMinute := w.startMinute, endMinute := w.endMinute,
            resourceLabel := id r })) ∧
    ((∀ w ∈ [c2Existing], conflictsWith c2Candidate w = false) →
      findConflicts id c2Candidate [c2Existing] = .ok [])) :=
  ⟨by decide, by decide,
    findConflicts_conflict_iff id c2Candidate c2Existing [c2Existing]
      (by decide) (by decide)⟩

/-- Concrete instance of the initial-status property: the sample submission
persists with status `approved`. -/
theorem onSubmit_initial_status_witness :
    (onSubmit c3Values [] [10] none []).persisted = some c3Persisted ∧
    ((c3Persisted.status = "approved" ∨ c3Persisted.status = "pending") ∧
      (c3Persisted.status = "approved" ↔
        (([] : List ConflictInfo) = [] ∧
          (isDateAvailable [10] c3Values.date &&
            jsStrLe "07:00" c3Values.startTime &&
            jsStrLe c3Values.endTime "19:00") = true))) :=
  ⟨by decide, onSubmit_initial_status c3Values [] [10] none [] c3Persisted (by decide)⟩

/-- Concrete instance of the early-return property: with one conflict the
submission persists nothing and sends no notification. -/
theorem onSubmit_conflict_aborts_witness :
    c8Conflicts ≠ [] ∧
    onSubmit c3Values [] [10] none c8Conflicts =
      { persisted := none, notified := false } :=
  ⟨by decide,
    onSubmit_conflict_aborts c3Values [] [10] none c8Conflicts (by decide)⟩

/-- Concrete instance of the precondition property at an accepted form value. -/
theorem formSchema_meets_engine_preconditions_witness :
    formSchemaAccepts c9Values = true ∧
    (timeRegexOK c9Values.startTime = true ∧ timeRegexOK c9Values.endTime = true ∧
      7 ≤ (timeHM c9Values.startTime).1 ∧ (timeHM c9Values.startTime).1 < 19 ∧
      7 < (timeHM c9Values.endTime).1 ∧ (timeHM c9Values.endTime).1 ≤ 19 ∧
      timeToMinutes c9Values.startTime < timeToMinutes c9Values.endTime ∧
      c9Values.selectedEquipment ≠ [] ∧
      ∃ cs, findConflicts id (mkCandidate c9Values) [] = .ok cs) :=
  ⟨by decide, formSchema_meets_engine_preconditions c9Values id [] (by decide)⟩
